import Mathlib

/-!
# smartReminder — formal verification of the reminder trigger engine

Shallow embedding of the reminder trigger engine (time scheduler in
`src/types.ts` / notification service, geofence tracker in
`src/services/locationService.ts`) and proofs of the frozen claims.

Modelling conventions:
* JS epoch-millisecond timestamps are `Int`; local time is modelled as a
  linear clock with no DST (a calendar day is exactly 86 400 000 ms), so
  `setHours(h, m, 0, 0)` is "start of current day + h·3 600 000 + m·60 000"
  and `setDate(getDate() + 1)` is "+ 86 400 000".
* JS numbers that can be `NaN` (or an invalid `Date`'s time) are
  `Option Int`, with `none` playing NaN/undefined: arithmetic propagates
  `none`, and every `<=` comparison against `none` is `false`, exactly the
  IEEE comparison semantics the code relies on.
* Fallible/optional reminder fields are `Option`s; JS truthiness of a
  number is "`some i` with `i ≠ 0`", of a string "`some s` with `s ≠ ""`".
-/

namespace SmartReminder

/-- `TriggerType` enum from `src/types.ts`. -/
inductive TriggerType where
  | time
  | location
deriving DecidableEq, Repr

/-- `LocationTrigger` enum from `src/types.ts`. -/
inductive LocationTrigger where
  | onEnter
  | onLeave
deriving DecidableEq, Repr

/-- `IntervalUnit` enum from `src/types.ts`. -/
inductive IntervalUnit where
  | minutes
  | hours
  | days
deriving DecidableEq, Repr

/-- `TriggerTimeType` enum from `src/types.ts`. -/
inductive TriggerTimeType where
  | interval
  | exact
deriving DecidableEq, Repr

/-- The `location` field group of a `Reminder` (`src/types.ts`). -/
structure LocationSpec where
  address : String
  lat : ℝ
  lng : ℝ
  radius : ℝ
  triggerOn : LocationTrigger

/-- The `Reminder` record from `src/types.ts`.  Optional fields are
`Option`s; `interval` is an `Int` (the engine only ever multiplies it). -/
structure Reminder where
  id : String
  createdAt : Int
  text : String
  triggerType : TriggerType
  triggerTimeType : Option TriggerTimeType
  timeOfDay : Option String
  isRecurring : Option Bool
  interval : Option Int
  intervalUnit : Option IntervalUnit
  location : Option LocationSpec
  vibrate : Bool
  sound : String

/-! ## Time scheduler (`scheduleNotification` and friends) -/

/-- `getIntervalMilliseconds` from the notification service: interval ×
unit-to-milliseconds.  The JS `default: return 0` branch is unreachable for
the closed enum and has no counterpart here. -/
def getIntervalMilliseconds (interval : Int) (unit : IntervalUnit) : Int :=
  match unit with
  | .minutes => interval * 60 * 1000
  | .hours => interval * 60 * 60 * 1000
  | .days => interval * 24 * 60 * 60 * 1000

/-- `timeOfDay.split(':')` on the underlying character list: splits at every
`':'`, keeping empty segments, and yields `[""]` for the empty string —
the behaviour of JS `String.prototype.split`. -/
def splitColonAux : List Char → List String
  | [] => [""]
  | c :: cs =>
    let rest := splitColonAux cs
    if c = ':' then "" :: rest
    else
      match rest with
      | [] => [String.mk [c]]
      | h :: t => String.mk (c :: h.data) :: t

/-- `timeOfDay.split(':')`. -/
def splitColon (s : String) : List String :=
  splitColonAux s.data

/-- Decimal digit accumulation for `jsToNumber`. -/
def digitsToNatAux (acc : Nat) : List Char → Option Nat
  | [] => some acc
  | c :: cs =>
    if c.isDigit then digitsToNatAux (acc * 10 + (c.toNat - 48)) cs else none

/-- A non-empty all-digit character list as a number; `none` otherwise. -/
def digitsToNat : List Char → Option Nat
  | [] => none
  | cs => digitsToNatAux 0 cs

/-- JS `Number(s)` on the string shapes the scheduler meets: `Number("") = 0`,
signed decimal integer strings parse, anything non-numeric (such as
`"noon"`) is NaN, i.e. `none`.  (JS also accepts fractional/whitespace/hex
forms; none arise from an `HH:MM` time-of-day field.) -/
def jsToNumber (s : String) : Option Int :=
  match s.data with
  | [] => some 0
  | '-' :: cs => (digitsToNat cs).map (fun n => -(n : Int))
  | '+' :: cs => (digitsToNat cs).map (fun n => (n : Int))
  | cs => (digitsToNat cs).map (fun n => (n : Int))

/-- `reminder.timeOfDay.split(':').map(Number)` followed by the
destructuring `[hours, minutes]`: component 0 always exists; component 1 is
`undefined` (here `none`, which `setHours` treats like NaN) when the string
has no `':'`. -/
def parseHM (tod : String) : Option Int × Option Int :=
  let parts := splitColon tod
  ((parts.get? 0).bind jsToNumber, (parts.get? 1).bind jsToNumber)

/-- Start of the current local day: what `new Date()` mutated by
`setHours(·, ·, 0, 0)` is offset from.  `Int.emod` is non-negative for the
positive modulus, so this is total. -/
def dayStart (now : Int) : Int :=
  now - now % 86400000

/-- Today's occurrence of `h:m`: `targetDate.setHours(hours, minutes, 0, 0)`
(out-of-range components roll over, exactly as in JS date arithmetic on a
linear clock). -/
def todayOccurrence (now h m : Int) : Int :=
  dayStart now + h * 3600000 + m * 60000

/-- The `while (targetDate.getTime() <= now.getTime()) targetDate += intervalMs`
loop of the recurring exact branch.  Terminates because the guard
established `0 < iv`. -/
def advanceLoop (now iv : Int) (hiv : 0 < iv) (t : Int) : Int :=
  if t ≤ now then advanceLoop now iv hiv (t + iv) else t
termination_by (now + iv - t).toNat
decreasing_by
  omega

/-- `reminder.interval || 1`: `undefined`, `0` (and NaN, not representable
here) are falsy and replaced by `1`. -/
def intervalOrOne (o : Option Int) : Int :=
  match o with
  | some i => if i = 0 then 1 else i
  | none => 1

/-- The target instant computed by the `Exact`-mode branch of
`scheduleNotification`, as an epoch timestamp; `none` is an invalid date
(NaN time), produced when a time-of-day component fails to parse. -/
def exactTarget (r : Reminder) (tod : String) (now : Int) : Option Int :=
  match parseHM tod with
  | (some h, some m) =>
    let t := todayOccurrence now h m
    if t ≤ now then
      if r.isRecurring = some true then
        let iv := getIntervalMilliseconds (intervalOrOne r.interval)
          (r.intervalUnit.getD .days)
        if hiv : 0 < iv then
          some (advanceLoop now iv hiv t)
        else
          some (t + 86400000)
      else
        some (t + 86400000)
    else
      some t
  | _ => none

/-- The observable decision `scheduleNotification` makes after its initial
`cancelNotification`: arm a timer with some delay (possibly NaN), or arm
nothing.  -/
inductive ScheduleAction where
  | noTimer
  | timer (delay : Option Int)
deriving DecidableEq, Repr

/-- The delay-computation core of `scheduleNotification` from the
notification service.  Follows the source branch-for-branch: the
`Exact && timeOfDay` guard (empty string falsy), the `Interval` branch's
missing-field early return (`!interval || !intervalUnit`, with `0` falsy),
and the final defensive `if (delay <= 0) return` — which a NaN delay slips
past, because NaN compares false. -/
def scheduleAction (r : Reminder) (now : Int) : ScheduleAction :=
  if r.triggerType = TriggerType.time then
    match r.triggerTimeType, r.timeOfDay with
    | some .exact, some tod =>
      if tod = "" then .noTimer
      else
        match exactTarget r tod now with
        | some t => if t - now ≤ 0 then .noTimer else .timer (some (t - now))
        | none => .timer none
    | some .interval, _ =>
      match r.interval, r.intervalUnit with
      | some i, some u =>
        if i = 0 then .noTimer
        else if getIntervalMilliseconds i u ≤ 0 then .noTimer
        else .timer (some (getIntervalMilliseconds i u))
      | _, _ => .noTimer
    | _, _ => .noTimer
  else .noTimer

/-! ## Scheduler state: the `scheduledNotifications` map and live timers

`window.setTimeout` hands out fresh numeric handles; `window.clearTimeout`
kills one.  `live` lists the currently pending timers, tagged with the
reminder id each was armed for; `map` is the `scheduledNotifications`
`Map<string, number>`; `next` is the next fresh handle. -/

structure SchedulerState where
  map : String → Option Nat
  live : List (String × Nat)
  next : Nat

/-- `cancelNotification` from the notification service: if the map has the
id, `clearTimeout` the stored handle and delete the entry; otherwise do
nothing at all. -/
def cancelNotification (id : String) (s : SchedulerState) : SchedulerState :=
  match s.map id with
  | some t =>
    ⟨fun k => if k = id then none else s.map k,
     s.live.filter (fun p => p.2 ≠ t),
     s.next⟩
  | none => s

/-- `scheduleNotification`'s effect on the scheduler state: cancel the
previous timer for this id first, then — when the delay computation decides
to arm — `setTimeout` a fresh handle and store it in the map. -/
def scheduleNotification (r : Reminder) (now : Int) (s : SchedulerState) :
    SchedulerState :=
  let s1 := cancelNotification r.id s
  match scheduleAction r now with
  | .noTimer => s1
  | .timer _ =>
    ⟨fun k => if k = r.id then some s1.next else s1.map k,
     (r.id, s1.next) :: s1.live,
     s1.next + 1⟩

/-- Number of live (pending, uncancelled) timers armed for a given id. -/
def countLive (s : SchedulerState) (id : String) : Nat :=
  (s.live.filter (fun p => p.1 = id)).length

/-- The scheduler's representation invariant: every live timer's handle is
below the allocator, its id is mapped to exactly that handle, every map
entry has its live timer, and no two live timers share a handle. -/
def SchedulerInv (s : SchedulerState) : Prop :=
  (∀ p ∈ s.live, p.2 < s.next ∧ s.map p.1 = some p.2) ∧
  (∀ id t, s.map id = some t → (id, t) ∈ s.live) ∧
  (s.live.map Prod.snd).Nodup

/-- The empty scheduler: no timers ever armed. -/
def emptyScheduler : SchedulerState :=
  ⟨fun _ => none, [], 0⟩

/-! ## Geofence tracker (`src/services/locationService.ts`) -/

/-- `distance <= reminder.location.radius`, the float comparison that
classifies a position as inside the geofence.  Real-number comparison is
classical, hence the tracker below is noncomputable — precisely the part of
the code that is transcendental float arithmetic. -/
noncomputable def insideP (lat lng : ℝ) (dist : ℝ → ℝ → ℝ → ℝ → ℝ)
    (loc : LocationSpec) : Bool :=
  haveI := Classical.propDecidable (dist lat lng loc.lat loc.lng ≤ loc.radius)
  decide (dist lat lng loc.lat loc.lng ≤ loc.radius)

/-- The `locationStates` map: reminder id ↦ `{ wasInside }`. -/
def StateMap :=
  String → Option Bool

/-- The body of `checkReminders`' loop for one reminder: compute `isInside`,
default the stored state to `{ wasInside: isInside }` when absent, fire on a
direction-matching transition, and unconditionally store `isInside`.
Parameterised by the distance function the service computes with. -/
noncomputable def checkOne (dist : ℝ → ℝ → ℝ → ℝ → ℝ) (lat lng : ℝ)
    (r : Reminder) (m : StateMap) : StateMap × Option Reminder :=
  match r.location with
  | none => (m, none)
  | some loc =>
    let isInside := insideP lat lng dist loc
    let wasInside := (m r.id).getD isInside
    let fired : Option Reminder :=
      if wasInside ≠ isInside then
        if isInside ∧ loc.triggerOn = .onEnter then some r
        else if ¬ isInside ∧ loc.triggerOn = .onLeave then some r
        else none
      else none
    (fun k => if k = r.id then some isInside else m k, fired)

/-- `checkReminders`: the `for (const reminder of reminders)` loop, threading
the `locationStates` map and collecting the `onTrigger` calls in order. -/
noncomputable def checkReminders (dist : ℝ → ℝ → ℝ → ℝ → ℝ) (lat lng : ℝ)
    (rs : List Reminder) (m : StateMap) : StateMap × List Reminder :=
  match rs with
  | [] => (m, [])
  | r :: rest =>
    let step := checkOne dist lat lng r m
    let tail := checkReminders dist lat lng rest step.1
    (tail.1, step.2.toList ++ tail.2)

/-- The `reminders.forEach` body of the one-shot `getCurrentPosition` success
callback: store `wasInside` for every location reminder from the current
position, starting from the just-cleared map. -/
noncomputable def initStatesFrom (dist : ℝ → ℝ → ℝ → ℝ → ℝ) (lat lng : ℝ)
    (rs : List Reminder) (m : StateMap) : StateMap :=
  match rs with
  | [] => m
  | r :: rest =>
    initStatesFrom dist lat lng rest
      (match r.location with
       | none => m
       | some loc => fun k => if k = r.id then some (insideP lat lng dist loc) else m k)

/-- The baseline initialisation in `startWatchingLocation`: after
`locationStates.clear()`, the one-shot read seeds the state map. -/
noncomputable def initStates (dist : ℝ → ℝ → ℝ → ℝ → ℝ) (lat lng : ℝ)
    (rs : List Reminder) : StateMap :=
  initStatesFrom dist lat lng rs (fun _ => none)

/-! ## Error wiring of `startWatchingLocation`

What matters for the error-handling claims is which callbacks and options
each geolocation call registers, and what the error handler does. -/

/-- The caller-visible tracker session: the live `watchId`, and the errors
surfaced to the user (the `alert` calls of `handleError`). -/
structure TrackerSession where
  watchId : Option Nat
  surfacedErrors : List String

/-- `stopWatchingLocation`: clear the watch if one is live; idempotent. -/
def stopWatchingLocation (s : TrackerSession) : TrackerSession :=
  match s.watchId with
  | some _ => ⟨none, s.surfacedErrors⟩
  | none => s

/-- `handleError` from `startWatchingLocation`: log, stop watching, and
alert a message chosen by the error code (1 = `PERMISSION_DENIED`). -/
def handleError (code : Nat) (s : TrackerSession) : TrackerSession :=
  let s1 := stopWatchingLocation s
  ⟨s1.watchId,
   (if code = 1 then "permission denied" else "could not get location") ::
     s1.surfacedErrors⟩

/-- Effect of a failure of the initial one-shot read:
`navigator.geolocation.getCurrentPosition(successCb)` is called with a
success callback only — no error callback is registered — so a position
error there invokes nothing and the session is untouched. -/
def initReadFailure (s : TrackerSession) : TrackerSession :=
  s

/-- Options of a geolocation request as issued by the source: whether an
error callback was registered, and the `timeout` option bounding the wait
for a fix (`none` = wait forever). -/
structure GeoRequest where
  hasErrorCallback : Bool
  timeoutMs : Option Nat

/-- The one-shot `getCurrentPosition(position => {...})` call of
`startWatchingLocation`: success callback only, no options object. -/
def oneShotRequest : GeoRequest :=
  ⟨false, none⟩

/-- The `watchPosition(cb, handleError, { enableHighAccuracy: true,
timeout: 10000, maximumAge: 0 })` call of `startWatchingLocation`. -/
def watchRequest : GeoRequest :=
  ⟨true, some 10000⟩

/-! ## Geo math (`calculateDistance`) -/

open Real in
/-- JS `Math.atan2(y, x)`, as the argument of the complex number `x + y·i`
(the standard real-analysis rendering; agrees with `atan2` away from the
origin, and both give `0` at it). -/
noncomputable def atan2 (y x : ℝ) : ℝ :=
  Complex.arg ⟨x, y⟩

open Real in
/-- `calculateDistance` from `src/services/locationService.ts`: haversine
great-circle distance in metres on a sphere of radius `6371e3`. -/
noncomputable def calculateDistance (lat1 lon1 lat2 lon2 : ℝ) : ℝ :=
  let R : ℝ := 6371000
  let φ1 := lat1 * π / 180
  let φ2 := lat2 * π / 180
  let Δφ := (lat2 - lat1) * π / 180
  let Δlon := (lon2 - lon1) * π / 180
  let a := sin (Δφ / 2) * sin (Δφ / 2) +
    cos φ1 * cos φ2 * sin (Δlon / 2) * sin (Δlon / 2)
  let c := 2 * atan2 (Real.sqrt a) (Real.sqrt (1 - a))
  R * c

/-! ## Properties of the catch-up loop -/

theorem advanceLoop_le (now iv : Int) (hiv : 0 < iv) (t : Int) (h : t ≤ now) :
    advanceLoop now iv hiv t = advanceLoop now iv hiv (t + iv) := by
  rw [advanceLoop]
  simp [h]

theorem advanceLoop_gt (now iv : Int) (hiv : 0 < iv) (t : Int) (h : now < t) :
    advanceLoop now iv hiv t = t := by
  rw [advanceLoop]
  simp [not_le.mpr h]

/-- The catch-up loop returns the smallest multiple-offset instant strictly
after `now`. -/
theorem advanceLoop_spec (now iv : Int) (hiv : 0 < iv) (t : Int) :
    now < advanceLoop now iv hiv t ∧
    (∃ k : ℕ, advanceLoop now iv hiv t = t + (k : Int) * iv) ∧
    (∀ j : ℕ, now < t + (j : Int) * iv →
      advanceLoop now iv hiv t ≤ t + (j : Int) * iv) := by
  by_cases h : t ≤ now
  · obtain ⟨ih1, ⟨k, ih2⟩, ih3⟩ := advanceLoop_spec now iv hiv (t + iv)
    rw [advanceLoop_le now iv hiv t h]
    refine ⟨ih1, ⟨k + 1, by rw [ih2]; push_cast; ring⟩, ?_⟩
    intro j hj
    match j with
    | 0 => simp at hj; omega
    | j' + 1 =>
      have hrw : t + ((j' : Int) + 1) * iv = (t + iv) + (j' : Int) * iv := by
        ring
      push_cast at hj ⊢
      rw [hrw] at hj ⊢
      exact ih3 j' hj
  · rw [advanceLoop_gt now iv hiv t (by omega)]
    refine ⟨by omega, ⟨0, by simp⟩, ?_⟩
    intro j _
    have : (0 : Int) ≤ (j : Int) * iv :=
      mul_nonneg (by positivity) hiv.le
    omega
termination_by (now + iv - t).toNat
decreasing_by omega

/-! ## Claims about the time scheduler -/

/-- **C1.** Exact-mode, recurring, today's slot already passed: the armed
target is the smallest instant strictly after `now` reachable from today's
occurrence by whole multiples of `interval × intervalUnit` milliseconds,
and it is never in the past. -/
theorem c1_exact_recurring_next_occurrence
    (r : Reminder) (now h m i : Int) (u : IntervalUnit) (tod : String)
    (htt : r.triggerType = TriggerType.time)
    (hty : r.triggerTimeType = some TriggerTimeType.exact)
    (htod : r.timeOfDay = some tod) (hne : tod ≠ "")
    (hparse : parseHM tod = (some h, some m))
    (hrec : r.isRecurring = some true)
    (hi : r.interval = some i) (hipos : 0 < i)
    (hu : r.intervalUnit = some u)
    (hpast : todayOccurrence now h m ≤ now) :
    ∃ target : Int,
      scheduleAction r now = ScheduleAction.timer (some (target - now)) ∧
      now < target ∧
      (∃ k : ℕ,
        target = todayOccurrence now h m + (k : Int) * getIntervalMilliseconds i u) ∧
      (∀ j : ℕ,
        now < todayOccurrence now h m + (j : Int) * getIntervalMilliseconds i u →
        target ≤ todayOccurrence now h m + (j : Int) * getIntervalMilliseconds i u) := by
  have hivpos : 0 < getIntervalMilliseconds i u := by
    cases u <;> simp [getIntervalMilliseconds] <;> omega
  have hio : intervalOrOne r.interval = i := by
    simp [intervalOrOne, hi, show i ≠ 0 by omega]
  have hgd : r.intervalUnit.getD IntervalUnit.days = u := by
    simp [hu]
  have htgt : exactTarget r tod now =
      some (advanceLoop now (getIntervalMilliseconds i u) hivpos
        (todayOccurrence now h m)) := by
    rw [exactTarget, hparse]
    simp only [hio, hgd, hrec, eq_self_iff_true, if_true, if_pos hpast,
      dif_pos hivpos]
  obtain ⟨hgt, hmul, hmin⟩ :=
    advanceLoop_spec now (getIntervalMilliseconds i u) hivpos (todayOccurrence now h m)
  set T := advanceLoop now (getIntervalMilliseconds i u) hivpos (todayOccurrence now h m)
    with hT
  refine ⟨T, ?_, hgt, hmul, hmin⟩
  have hng : ¬ T - now ≤ 0 := by omega
  rw [scheduleAction, if_pos htt, hty, htod]
  simp only [htgt, if_neg hne, if_neg hng]

/-- **C2.** Exact-mode, non-recurring, today's slot already passed: the
target is tomorrow at the same time of day, with `0 < delay ≤ 86400000`. -/
theorem c2_exact_nonrecurring_tomorrow
    (r : Reminder) (now h m : Int) (tod : String)
    (htt : r.triggerType = TriggerType.time)
    (hty : r.triggerTimeType = some TriggerTimeType.exact)
    (htod : r.timeOfDay = some tod) (hne : tod ≠ "")
    (hparse : parseHM tod = (some h, some m))
    (hh : 0 ≤ h) (hm : 0 ≤ m)
    (hrec : r.isRecurring ≠ some true)
    (hpast : todayOccurrence now h m ≤ now) :
    scheduleAction r now =
      ScheduleAction.timer (some (todayOccurrence now h m + 86400000 - now)) ∧
    todayOccurrence now h m + 86400000 = todayOccurrence (now + 86400000) h m ∧
    0 < todayOccurrence now h m + 86400000 - now ∧
    todayOccurrence now h m + 86400000 - now ≤ 86400000 := by
  have hdelay : 0 < todayOccurrence now h m + 86400000 - now ∧
      todayOccurrence now h m + 86400000 - now ≤ 86400000 := by
    unfold todayOccurrence dayStart at hpast ⊢
    omega
  have htgt : exactTarget r tod now = some (todayOccurrence now h m + 86400000) := by
    rw [exactTarget, hparse]
    simp only [if_pos hpast, if_neg hrec]
  refine ⟨?_, ?_, hdelay.1, hdelay.2⟩
  · have hng : ¬ todayOccurrence now h m + 86400000 - now ≤ 0 := by omega
    rw [scheduleAction, if_pos htt, hty, htod]
    simp only [htgt, if_neg hne, if_neg hng]
  · unfold todayOccurrence dayStart
    omega

/-- Unit-to-milliseconds factors, as the spec words them. -/
def specUnitMs : IntervalUnit → Int
  | .minutes => 60000
  | .hours => 3600000
  | .days => 86400000

/-- **C3.** Interval mode with a positive interval and a valid unit arms a
delay of exactly `interval × unitMs`, independent of the call moment. -/
theorem c3_interval_delay
    (r : Reminder) (now now' i : Int) (u : IntervalUnit)
    (htt : r.triggerType = TriggerType.time)
    (hty : r.triggerTimeType = some TriggerTimeType.interval)
    (hi : r.interval = some i) (hipos : 0 < i)
    (hu : r.intervalUnit = some u) :
    scheduleAction r now = ScheduleAction.timer (some (i * specUnitMs u)) ∧
    specUnitMs IntervalUnit.minutes = 60000 ∧
    specUnitMs IntervalUnit.hours = 3600000 ∧
    specUnitMs IntervalUnit.days = 86400000 ∧
    scheduleAction r now = scheduleAction r now' := by
  have hms : getIntervalMilliseconds i u = i * specUnitMs u := by
    cases u <;> simp [getIntervalMilliseconds, specUnitMs] <;> ring
  have hi0 : ¬ i = 0 := by omega
  have hle : ¬ i * specUnitMs u ≤ 0 := by
    cases u <;> simp only [specUnitMs] <;> omega
  have harm : ∀ t : Int, scheduleAction r t =
      ScheduleAction.timer (some (i * specUnitMs u)) := by
    intro t
    rw [scheduleAction, if_pos htt, hty]
    cases htd : r.timeOfDay <;>
      simp only [hi, hu, hms, if_neg hi0, if_neg hle]
  exact ⟨harm now, rfl, rfl, rfl, (harm now).trans (harm now').symm⟩

/-- **C4.** A Time reminder with missing interval or unit (Interval mode) or
missing time-of-day (Exact mode, recurring or not) silently arms nothing:
the action is `noTimer` and the scheduler map holds no entry for the id. -/
theorem c4_missing_config_noop
    (r : Reminder) (now : Int) (s : SchedulerState)
    (htt : r.triggerType = TriggerType.time)
    (hcase :
      (r.triggerTimeType = some TriggerTimeType.interval ∧
        (r.interval = none ∨ r.intervalUnit = none)) ∨
      (r.triggerTimeType = some TriggerTimeType.exact ∧ r.timeOfDay = none)) :
    scheduleAction r now = ScheduleAction.noTimer ∧
    (scheduleNotification r now s).map r.id = none := by
  have hact : scheduleAction r now = ScheduleAction.noTimer := by
    rw [scheduleAction, if_pos htt]
    rcases hcase with ⟨hty, hmiss⟩ | ⟨hty, htod⟩
    · rw [hty]
      rcases hmiss with hi | hu
      · cases htd : r.timeOfDay <;> cases hu' : r.intervalUnit <;> simp [hi]
      · cases htd : r.timeOfDay <;> cases hi' : r.interval <;> simp [hu]
    · rw [hty, htod]
  have hcancel : (cancelNotification r.id s).map r.id = none := by
    unfold cancelNotification
    cases hmap : s.map r.id with
    | none => exact hmap
    | some t => simp
  refine ⟨hact, ?_⟩
  unfold scheduleNotification
  rw [hact]
  exact hcancel

/-- **C10.** Exact mode with a time-of-day string that does not parse into
numeric hours and minutes: the delay is NaN, the `delay <= 0` guard does not
fire (NaN compares false), and a timer is armed with NaN delay. -/
theorem c10_nan_delay_arms_timer
    (r : Reminder) (now : Int) (tod : String)
    (htt : r.triggerType = TriggerType.time)
    (hty : r.triggerTimeType = some TriggerTimeType.exact)
    (htod : r.timeOfDay = some tod) (hne : tod ≠ "")
    (hbad : (parseHM tod).1 = none ∨ (parseHM tod).2 = none) :
    exactTarget r tod now = none ∧
    scheduleAction r now = ScheduleAction.timer none := by
  have htgt : exactTarget r tod now = none := by
    rw [exactTarget]
    rcases hp : parseHM tod with ⟨p1, p2⟩
    rw [hp] at hbad
    rcases hbad with h1 | h2
    · simp at h1
      subst h1
      rfl
    · simp at h2
      subst h2
      cases p1 <;> rfl
  refine ⟨htgt, ?_⟩
  rw [scheduleAction, if_pos htt, hty, htod]
  simp only [htgt, if_neg (by exact hne)]

/-! ## Concrete reminders for witnesses -/

/-- A 10-minute interval reminder. -/
def rIvDemo : Reminder :=
  ⟨"iv", 0, "water", .time, some .interval, none, none, some 10, some .minutes,
    none, false, "default"⟩

/-- A non-recurring 09:00 exact reminder. -/
def rExDemo : Reminder :=
  ⟨"ex", 0, "standup", .time, some .exact, some "09:00", none, none, none,
    none, false, "default"⟩

/-- A recurring every-2-hours 09:00 exact reminder. -/
def rExRecDemo : Reminder :=
  ⟨"exr", 0, "pills", .time, some .exact, some "09:00", some true, some 2,
    some .hours, none, false, "default"⟩

/-- An interval reminder with its `interval` field missing. -/
def rMissDemo : Reminder :=
  ⟨"miss", 0, "x", .time, some .interval, none, none, none, some .minutes,
    none, false, "default"⟩

/-- An exact reminder whose time of day does not parse. -/
def rNoonDemo : Reminder :=
  ⟨"noon", 0, "lunch", .time, some .exact, some "noon", none, none, none,
    none, false, "default"⟩

/-- Witness for C1: the recurring 09:00/2h reminder scheduled at 09:05 of
day 0 (epoch 32 700 000) hits all hypotheses, and the theorem then pins the
armed target. -/
theorem c1_witness :
    parseHM "09:00" = (some 9, some 0) ∧
    todayOccurrence 32700000 9 0 ≤ 32700000 ∧
    (∃ target : Int,
      scheduleAction rExRecDemo 32700000 = ScheduleAction.timer (some (target - 32700000)) ∧
      32700000 < target ∧
      (∃ k : ℕ,
        target = todayOccurrence 32700000 9 0 +
          (k : Int) * getIntervalMilliseconds 2 IntervalUnit.hours) ∧
      (∀ j : ℕ,
        32700000 < todayOccurrence 32700000 9 0 +
          (j : Int) * getIntervalMilliseconds 2 IntervalUnit.hours →
        target ≤ todayOccurrence 32700000 9 0 +
          (j : Int) * getIntervalMilliseconds 2 IntervalUnit.hours)) :=
  ⟨by decide, by decide,
    c1_exact_recurring_next_occurrence rExRecDemo 32700000 9 0 2
      IntervalUnit.hours "09:00" rfl rfl rfl (by decide) (by decide) rfl rfl
      (by decide) rfl (by decide)⟩

/-- Witness for C2: the non-recurring 09:00 reminder scheduled at 09:05 of
day 0 targets tomorrow 09:00 with a delay in `(0, 86400000]`. -/
theorem c2_witness :
    parseHM "09:00" = (some 9, some 0) ∧
    todayOccurrence 32700000 9 0 ≤ 32700000 ∧
    (scheduleAction rExDemo 32700000 =
      ScheduleAction.timer (some (todayOccurrence 32700000 9 0 + 86400000 - 32700000)) ∧
    todayOccurrence 32700000 9 0 + 86400000 = todayOccurrence (32700000 + 86400000) 9 0 ∧
    0 < todayOccurrence 32700000 9 0 + 86400000 - 32700000 ∧
    todayOccurrence 32700000 9 0 + 86400000 - 32700000 ≤ 86400000) :=
  ⟨by decide, by decide,
    c2_exact_nonrecurring_tomorrow rExDemo 32700000 9 0 "09:00" rfl rfl rfl
      (by decide) (by decide) (by decide) (by decide) (by decide) (by decide)⟩

/-- Witness for C3: the 10-minute interval reminder arms exactly
600 000 ms whatever the call moment. -/
theorem c3_witness :
    scheduleAction rIvDemo 0 =
      ScheduleAction.timer (some (10 * specUnitMs IntervalUnit.minutes)) ∧
    specUnitMs IntervalUnit.minutes = 60000 ∧
    specUnitMs IntervalUnit.hours = 3600000 ∧
    specUnitMs IntervalUnit.days = 86400000 ∧
    scheduleAction rIvDemo 0 = scheduleAction rIvDemo 999999 :=
  c3_interval_delay rIvDemo 0 999999 10 IntervalUnit.minutes rfl rfl rfl
    (by decide) rfl

/-- Witness for C4: the missing-interval reminder arms nothing and leaves
no map entry, from the empty scheduler. -/
theorem c4_witness :
    scheduleAction rMissDemo 0 = ScheduleAction.noTimer ∧
    (scheduleNotification rMissDemo 0 emptyScheduler).map rMissDemo.id = none :=
  c4_missing_config_noop rMissDemo 0 emptyScheduler rfl (Or.inl ⟨rfl, Or.inl rfl⟩)

/-- Witness for C10: `"noon"` does not parse, the target is NaN, and a
timer is armed with NaN delay. -/
theorem c10_witness :
    (parseHM "noon").1 = none ∧
    (exactTarget rNoonDemo "noon" 500 = none ∧
      scheduleAction rNoonDemo 500 = ScheduleAction.timer none) :=
  ⟨by decide,
    c10_nan_delay_arms_timer rNoonDemo 500 "noon" rfl rfl rfl (by decide)
      (Or.inl (by decide))⟩

/-! ## Scheduler invariant: at most one live timer per id -/

theorem length_le_one_of_nodup_of_all_eq {α : Type} (l : List α) (x : α)
    (hnd : l.Nodup) (hall : ∀ a ∈ l, a = x) : l.length ≤ 1 := by
  match l with
  | [] => simp
  | [a] => simp
  | a :: b :: t =>
    have ha := hall a (by simp)
    have hb := hall b (by simp)
    rw [List.nodup_cons] at hnd
    exact absurd (by simp [ha, hb]) hnd.1

theorem schedulerInv_empty : SchedulerInv emptyScheduler := by
  refine ⟨?_, ?_, ?_⟩ <;> simp [emptyScheduler]

theorem cancelNotification_map_self (id : String) (s : SchedulerState) :
    (cancelNotification id s).map id = none := by
  unfold cancelNotification
  cases hmap : s.map id with
  | none => exact hmap
  | some t => simp

theorem countLive_le_one (s : SchedulerState) (id : String)
    (hInv : SchedulerInv s) : countLive s id ≤ 1 := by
  obtain ⟨h1, h2, h3⟩ := hInv
  cases hmap : s.map id with
  | none =>
    have : s.live.filter (fun p => p.1 = id) = [] := by
      rw [List.filter_eq_nil_iff]
      intro p hp hpid
      simp only [decide_eq_true_eq] at hpid
      have := (h1 p hp).2
      rw [hpid, hmap] at this
      exact Option.noConfusion this
    simp [countLive, this]
  | some t =>
    apply length_le_one_of_nodup_of_all_eq _ (id, t)
    · exact ((h3.of_map Prod.snd).filter _)
    · intro p hp
      rw [List.mem_filter] at hp
      obtain ⟨hpl, hpid⟩ := hp
      simp only [decide_eq_true_eq] at hpid
      have hm := (h1 p hpl).2
      rw [hpid, hmap] at hm
      obtain ⟨p1, p2⟩ := p
      simp only at hpid hm
      rw [hpid, Option.some_inj.mp hm]

theorem countLive_cancel_self (id : String) (s : SchedulerState)
    (hInv : SchedulerInv s) : countLive (cancelNotification id s) id = 0 := by
  obtain ⟨h1, h2, h3⟩ := hInv
  unfold cancelNotification
  cases hmap : s.map id with
  | none =>
    simp only [countLive, List.length_eq_zero, List.filter_eq_nil_iff]
    intro p hp hpid
    simp only [decide_eq_true_eq] at hpid
    have := (h1 p hp).2
    rw [hpid, hmap] at this
    exact Option.noConfusion this
  | some t =>
    simp only [countLive, List.length_eq_zero, List.filter_eq_nil_iff,
      List.mem_filter]
    intro p hp hpid
    simp only [decide_eq_true_eq] at hpid
    obtain ⟨hpl, hpt⟩ := hp
    have := (h1 p hpl).2
    rw [hpid, hmap] at this
    simp only [decide_eq_true_eq, ne_eq] at hpt
    exact hpt (Option.some_inj.mp this).symm

theorem cancelNotification_inv (id : String) (s : SchedulerState)
    (hInv : SchedulerInv s) : SchedulerInv (cancelNotification id s) := by
  obtain ⟨h1, h2, h3⟩ := hInv
  unfold cancelNotification
  cases hmap : s.map id with
  | none => exact ⟨h1, h2, h3⟩
  | some t =>
    refine ⟨?_, ?_, ?_⟩
    · intro p hp
      rw [List.mem_filter] at hp
      obtain ⟨hpl, hpt⟩ := hp
      simp only [ne_eq, decide_not, Bool.not_eq_true', decide_eq_false_iff_not] at hpt
      refine ⟨(h1 p hpl).1, ?_⟩
      have hne : ¬ p.1 = id := by
        intro he
        have := (h1 p hpl).2
        rw [he, hmap] at this
        exact hpt (Option.some_inj.mp this).symm
      simp only [if_neg hne]
      exact (h1 p hpl).2
    · intro k t' hk
      by_cases hki : k = id
      · simp [hki] at hk
      · simp only [if_neg hki] at hk
        have hmem := h2 k t' hk
        rw [List.mem_filter]
        refine ⟨hmem, ?_⟩
        simp only [ne_eq, decide_not, Bool.not_eq_true', decide_eq_false_iff_not]
        intro he
        have hmem2 := h2 id t hmap
        have : (k, t') = (id, t) :=
          List.inj_on_of_nodup_map h3 hmem hmem2 (by simp [he])
        exact hki (congrArg Prod.fst this)
    · exact h3.sublist ((List.filter_sublist _).map Prod.snd)

theorem scheduleNotification_timer_eq (r : Reminder) (now : Int)
    (s : SchedulerState) (d : Option Int)
    (hd : scheduleAction r now = ScheduleAction.timer d) :
    scheduleNotification r now s =
      ⟨fun k => if k = r.id then some (cancelNotification r.id s).next
          else (cancelNotification r.id s).map k,
        (r.id, (cancelNotification r.id s).next) :: (cancelNotification r.id s).live,
        (cancelNotification r.id s).next + 1⟩ := by
  unfold scheduleNotification
  rw [hd]

theorem scheduleNotification_inv (r : Reminder) (now : Int) (s : SchedulerState)
    (hInv : SchedulerInv s) : SchedulerInv (scheduleNotification r now s) := by
  have hnone := cancelNotification_map_self r.id s
  obtain ⟨h1, h2, h3⟩ := cancelNotification_inv r.id s hInv
  cases hact : scheduleAction r now with
  | noTimer =>
    have heq : scheduleNotification r now s = cancelNotification r.id s := by
      unfold scheduleNotification
      rw [hact]
    rw [heq]
    exact ⟨h1, h2, h3⟩
  | timer d =>
    rw [scheduleNotification_timer_eq r now s d hact]
    refine ⟨?_, ?_, ?_⟩
    · intro p hp
      rcases List.mem_cons.mp hp with he | hl
      · subst he
        simp
      · obtain ⟨hlt, hm⟩ := h1 p hl
        refine ⟨by simp only; omega, ?_⟩
        have hne : ¬ p.1 = r.id := by
          intro he
          rw [he, hnone] at hm
          exact Option.noConfusion hm
        simp only [if_neg hne]
        exact hm
    · intro k t' hk
      by_cases hki : k = r.id
      · subst hki
        simp at hk
        rw [← hk]
        exact List.mem_cons_self _ _
      · simp only [if_neg hki] at hk
        exact List.mem_cons_of_mem _ (h2 k t' hk)
    · simp only [List.map_cons]
      rw [List.nodup_cons]
      refine ⟨?_, h3⟩
      intro hmem
      rw [List.mem_map] at hmem
      obtain ⟨p, hpl, hpe⟩ := hmem
      have := (h1 p hpl).1
      omega

theorem countLive_schedule_timer (r : Reminder) (now : Int) (s : SchedulerState)
    (hInv : SchedulerInv s) (d : Option Int)
    (hd : scheduleAction r now = ScheduleAction.timer d) :
    countLive (scheduleNotification r now s) r.id = 1 := by
  have hzero := countLive_cancel_self r.id s hInv
  rw [scheduleNotification_timer_eq r now s d hd]
  unfold countLive at hzero ⊢
  simp [List.filter_cons, hzero]

/-- **C7.** At most one live timer per id; scheduling twice in a row leaves
exactly one live timer for the id; cancelling an id with no pending timer
leaves the whole scheduler state unchanged. -/
theorem c7_single_live_timer
    (s : SchedulerState) (r : Reminder) (now : Int) (id₀ : String)
    (d : Option Int) (hInv : SchedulerInv s)
    (hd : scheduleAction r now = ScheduleAction.timer d)
    (hnone : s.map id₀ = none) :
    countLive s id₀ ≤ 1 ∧
    SchedulerInv (scheduleNotification r now s) ∧
    countLive (scheduleNotification r now (scheduleNotification r now s)) r.id = 1 ∧
    cancelNotification id₀ s = s := by
  refine ⟨countLive_le_one s id₀ hInv, scheduleNotification_inv r now s hInv, ?_, ?_⟩
  · exact countLive_schedule_timer r now _ (scheduleNotification_inv r now s hInv) d hd
  · unfold cancelNotification
    rw [hnone]

/-- Witness for C7: the interval reminder scheduled twice from the empty
scheduler leaves exactly one live timer. -/
theorem c7_witness :
    scheduleAction rIvDemo 0 = ScheduleAction.timer (some 600000) ∧
    emptyScheduler.map "zzz" = none ∧
    (countLive emptyScheduler "zzz" ≤ 1 ∧
      SchedulerInv (scheduleNotification rIvDemo 0 emptyScheduler) ∧
      countLive (scheduleNotification rIvDemo 0
        (scheduleNotification rIvDemo 0 emptyScheduler)) rIvDemo.id = 1 ∧
      cancelNotification "zzz" emptyScheduler = emptyScheduler) :=
  ⟨by decide, rfl,
    c7_single_live_timer emptyScheduler rIvDemo 0 "zzz" (some 600000)
      schedulerInv_empty (by decide) rfl⟩

/-! ## Claims about the geofence tracker -/

/-- **C5.** With a stored state present, a trigger fires iff the freshly
computed `isInside` differs from it and the transition direction matches
`triggerOn`; the stored state is unconditionally replaced by `isInside`. -/
theorem c5_geofence_transition_iff
    (dist : ℝ → ℝ → ℝ → ℝ → ℝ) (lat lng : ℝ) (r : Reminder)
    (loc : LocationSpec) (m : StateMap) (w : Bool)
    (hloc : r.location = some loc)
    (hstate : m r.id = some w) :
    ((checkOne dist lat lng r m).2 = some r ↔
      (w ≠ insideP lat lng dist loc ∧
        ((insideP lat lng dist loc = true ∧
            loc.triggerOn = LocationTrigger.onEnter) ∨
          (insideP lat lng dist loc = false ∧
            loc.triggerOn = LocationTrigger.onLeave)))) ∧
    (checkOne dist lat lng r m).1 r.id = some (insideP lat lng dist loc) := by
  constructor
  · cases hb : insideP lat lng dist loc <;> cases w <;> cases htr : loc.triggerOn <;>
      simp [checkOne, hloc, hstate, hb, htr]
  · cases hb : insideP lat lng dist loc <;>
      simp [checkOne, hloc, hstate, hb]

/-- A reminder with a geofence location and a known-id state map entry, plus
a trivial distance function, for the C5 witness. -/
def rLocDemo : Reminder :=
  ⟨"loc", 0, "arrive", .location, none, none, none, none, none,
    some ⟨"home", 0, 0, 100, .onEnter⟩, false, "default"⟩

/-- The constant-zero distance function used to instantiate the
distance-parametric tracker theorems at concrete inputs. -/
def distZero : ℝ → ℝ → ℝ → ℝ → ℝ :=
  fun _ _ _ _ => 0

/-- A one-entry state map: `rLocDemo` was outside. -/
def mDemo : StateMap :=
  fun k => if k = "loc" then some false else none

/-- Witness for C5 at `rLocDemo`, stored state `false`. -/
theorem c5_witness :
    rLocDemo.location = some ⟨"home", 0, 0, 100, LocationTrigger.onEnter⟩ ∧
    mDemo rLocDemo.id = some false ∧
    (((checkOne distZero 1 2 rLocDemo mDemo).2 = some rLocDemo ↔
      (false ≠ insideP 1 2 distZero ⟨"home", 0, 0, 100, LocationTrigger.onEnter⟩ ∧
        ((insideP 1 2 distZero ⟨"home", 0, 0, 100, LocationTrigger.onEnter⟩ = true ∧
            (⟨"home", 0, 0, 100, LocationTrigger.onEnter⟩ : LocationSpec).triggerOn =
              LocationTrigger.onEnter) ∨
          (insideP 1 2 distZero ⟨"home", 0, 0, 100, LocationTrigger.onEnter⟩ = false ∧
            (⟨"home", 0, 0, 100, LocationTrigger.onEnter⟩ : LocationSpec).triggerOn =
              LocationTrigger.onLeave)))) ∧
      (checkOne distZero 1 2 rLocDemo mDemo).1 rLocDemo.id =
        some (insideP 1 2 distZero ⟨"home", 0, 0, 100, LocationTrigger.onEnter⟩)) :=
  ⟨rfl, by decide,
    c5_geofence_transition_iff distZero 1 2 rLocDemo
      ⟨"home", 0, 0, 100, LocationTrigger.onEnter⟩ mDemo false rfl (by decide)⟩

/-- The stored baseline for `r` in `m` is the one computed from the position
`(lat0, lng0)` — trivially satisfied by reminders without a location. -/
def baselineOk (dist : ℝ → ℝ → ℝ → ℝ → ℝ) (lat0 lng0 : ℝ) (m : StateMap)
    (r : Reminder) : Prop :=
  match r.location with
  | some loc => m r.id = some (insideP lat0 lng0 dist loc)
  | none => True

theorem checkReminders_fresh
    (dist : ℝ → ℝ → ℝ → ℝ → ℝ) (lat lng : ℝ) (rs : List Reminder) (m : StateMap)
    (hfresh : ∀ r ∈ rs, m r.id = none)
    (hnd : (rs.map Reminder.id).Nodup) :
    (checkReminders dist lat lng rs m).2 = [] := by
  induction rs generalizing m with
  | nil => rfl
  | cons r rest ih =>
    simp only [List.map_cons, List.nodup_cons] at hnd
    have hr := hfresh r (List.mem_cons_self r rest)
    cases hloc : r.location with
    | none =>
      have hstep : checkOne dist lat lng r m = (m, none) := by
        unfold checkOne
        rw [hloc]
      simp only [checkReminders, hstep]
      rw [ih m (fun r' hr' => hfresh r' (List.mem_cons_of_mem r hr')) hnd.2]
      rfl
    | some loc =>
      have hstep : checkOne dist lat lng r m =
          (fun k => if k = r.id then some (insideP lat lng dist loc) else m k,
            none) := by
        unfold checkOne
        rw [hloc]
        simp [hr]
      simp only [checkReminders, hstep]
      rw [ih _ ?_ hnd.2]
      · rfl
      · intro r' hr'
        have hne : ¬ r'.id = r.id := by
          intro he
          exact hnd.1 (he ▸ List.mem_map_of_mem Reminder.id hr')
        simp only [if_neg hne]
        exact hfresh r' (List.mem_cons_of_mem r hr')

/-- `checkOne` either fires nothing or fires exactly the reminder it is
examining. -/
theorem checkOne_fired (dist : ℝ → ℝ → ℝ → ℝ → ℝ) (lat lng : ℝ)
    (r : Reminder) (m : StateMap) :
    (checkOne dist lat lng r m).2 = none ∨ (checkOne dist lat lng r m).2 = some r := by
  unfold checkOne
  cases hloc : r.location with
  | none => exact Or.inl rfl
  | some loc =>
    cases hw : m r.id with
    | none =>
      cases hb : insideP lat lng dist loc <;> simp [hb, hw]
    | some w =>
      cases hb : insideP lat lng dist loc <;> cases w <;>
        cases htr : loc.triggerOn <;> simp [hb, hw, htr]

theorem checkReminders_baseline
    (dist : ℝ → ℝ → ℝ → ℝ → ℝ) (lat lng lat0 lng0 : ℝ) (rs : List Reminder)
    (m : StateMap)
    (hbase : ∀ r ∈ rs, baselineOk dist lat0 lng0 m r)
    (hnd : (rs.map Reminder.id).Nodup) :
    ∀ r ∈ (checkReminders dist lat lng rs m).2,
      ∃ loc, r.location = some loc ∧
        insideP lat lng dist loc ≠ insideP lat0 lng0 dist loc := by
  induction rs generalizing m with
  | nil => simp [checkReminders]
  | cons r rest ih =>
    simp only [List.map_cons, List.nodup_cons] at hnd
    have hr := hbase r (List.mem_cons_self r rest)
    cases hloc : r.location with
    | none =>
      have hstep : checkOne dist lat lng r m = (m, none) := by
        unfold checkOne
        rw [hloc]
      simp only [checkReminders, hstep, Option.toList_none, List.nil_append]
      exact ih m (fun r' hr' => hbase r' (List.mem_cons_of_mem r hr')) hnd.2
    | some loc =>
      unfold baselineOk at hr
      rw [hloc] at hr
      by_cases htr : insideP lat lng dist loc = insideP lat0 lng0 dist loc
      · have hstep : checkOne dist lat lng r m =
            (fun k => if k = r.id then some (insideP lat lng dist loc) else m k,
              none) := by
          unfold checkOne
          rw [hloc]
          simp [hr, htr]
        simp only [checkReminders, hstep, Option.toList_none, List.nil_append]
        refine ih _ ?_ hnd.2
        intro r' hr'
        unfold baselineOk
        cases hloc' : r'.location with
        | none => trivial
        | some loc' =>
          have hne : ¬ r'.id = r.id := by
            intro he
            exact hnd.1 (he ▸ List.mem_map_of_mem Reminder.id hr')
          simp only [if_neg hne]
          have := hbase r' (List.mem_cons_of_mem r hr')
          unfold baselineOk at this
          rw [hloc'] at this
          exact this
      · intro r' hr'
        have hnext : ∀ m' : StateMap, (∀ q ∈ rest, baselineOk dist lat0 lng0 m' q) →
            r' ∈ (checkReminders dist lat lng rest m').2 →
            ∃ loc', r'.location = some loc' ∧
              insideP lat lng dist loc' ≠ insideP lat0 lng0 dist loc' :=
          fun m' hb hm => ih m' hb hnd.2 r' hm
        have hstep1 : (checkOne dist lat lng r m).1 =
            fun k => if k = r.id then some (insideP lat lng dist loc) else m k := by
          unfold checkOne
          rw [hloc]
        have hstep2 := checkOne_fired dist lat lng r m
        simp only [checkReminders] at hr'
        have hbrest : ∀ q ∈ rest, baselineOk dist lat0 lng0
            (checkOne dist lat lng r m).1 q := by
          intro q hq
          unfold baselineOk
          cases hloc' : q.location with
          | none => trivial
          | some loc' =>
            have hne : ¬ q.id = r.id := by
              intro he
              exact hnd.1 (he ▸ List.mem_map_of_mem Reminder.id hq)
            rw [hstep1]
            simp only [if_neg hne]
            have := hbase q (List.mem_cons_of_mem r hq)
            unfold baselineOk at this
            rw [hloc'] at this
            exact this
        rcases List.mem_append.mp hr' with hhead | htail
        · rcases hstep2 with hnone | hsome
          · rw [hnone] at hhead
            simp at hhead
          · rw [hsome] at hhead
            simp only [Option.toList_some, List.mem_singleton] at hhead
            subst hhead
            exact ⟨loc, hloc, htr⟩
        · exact hnext _ hbrest htail

theorem initStatesFrom_not_mem
    (dist : ℝ → ℝ → ℝ → ℝ → ℝ) (lat0 lng0 : ℝ) (rs : List Reminder)
    (m : StateMap) (id : String) (hid : id ∉ rs.map Reminder.id) :
    initStatesFrom dist lat0 lng0 rs m id = m id := by
  induction rs generalizing m with
  | nil => rfl
  | cons r rest ih =>
    simp only [List.map_cons, List.mem_cons, not_or] at hid
    rw [initStatesFrom]
    cases hloc : r.location with
    | none => exact ih _ hid.2
    | some loc =>
      rw [ih _ hid.2]
      simp only [if_neg hid.1]

theorem initStatesFrom_baselineOk
    (dist : ℝ → ℝ → ℝ → ℝ → ℝ) (lat0 lng0 : ℝ) (rs : List Reminder)
    (m : StateMap) (hnd : (rs.map Reminder.id).Nodup) :
    ∀ r ∈ rs, baselineOk dist lat0 lng0 (initStatesFrom dist lat0 lng0 rs m) r := by
  induction rs generalizing m with
  | nil => simp
  | cons r rest ih =>
    simp only [List.map_cons, List.nodup_cons] at hnd
    intro r' hr'
    rcases List.mem_cons.mp hr' with he | htail
    · subst he
      unfold baselineOk
      cases hloc : r'.location with
      | none => trivial
      | some loc =>
        rw [initStatesFrom, hloc]
        rw [initStatesFrom_not_mem dist lat0 lng0 rest _ r'.id hnd.1]
        simp
    · exact ih _ hnd.2 r' htail

/-- **C6.** With per-reminder unique ids: a first sample processed on a
cleared state map fires nothing (each reminder's state defaults to the
just-computed `isInside`), and after the one-shot baseline read, a sample
fires a reminder only if its inside/outside status differs from the
baseline — no trigger before a transition-indicating sample. -/
theorem c6_no_fire_before_transition
    (dist : ℝ → ℝ → ℝ → ℝ → ℝ) (lat lng lat0 lng0 : ℝ) (rs : List Reminder)
    (hnd : (rs.map Reminder.id).Nodup) :
    (checkReminders dist lat lng rs (fun _ => none)).2 = [] ∧
    (∀ r ∈ (checkReminders dist lat lng rs (initStates dist lat0 lng0 rs)).2,
      ∃ loc, r.location = some loc ∧
        insideP lat lng dist loc ≠ insideP lat0 lng0 dist loc) := by
  constructor
  · exact checkReminders_fresh dist lat lng rs _ (fun _ _ => rfl) hnd
  · exact checkReminders_baseline dist lat lng lat0 lng0 rs _
      (initStatesFrom_baselineOk dist lat0 lng0 rs _ hnd) hnd

/-- Witness for C6 at the singleton watched list `[rLocDemo]`. -/
theorem c6_witness :
    ([rLocDemo].map Reminder.id).Nodup ∧
    ((checkReminders distZero 1 2 [rLocDemo] (fun _ => none)).2 = [] ∧
      (∀ r ∈ (checkReminders distZero 1 2 [rLocDemo]
          (initStates distZero 3 4 [rLocDemo])).2,
        ∃ loc, r.location = some loc ∧
          insideP 1 2 distZero loc ≠ insideP 3 4 distZero loc)) :=
  ⟨by decide, c6_no_fire_before_transition distZero 1 2 3 4 [rLocDemo] (by decide)⟩

/-! ## Claims about error handling of position acquisition -/

/-- **C8, counterexample.** A failure of the initial one-shot position read
leaves a live watch running and surfaces nothing — `getCurrentPosition` is
called with a success callback only, no error callback and no bounded-wait
`timeout` option — refuting "every failure to obtain a position, including
the bounded-wait initial one-shot read, surfaces as an error and stops the
watch". -/
theorem c8_counterexample :
    (initReadFailure ⟨some 0, []⟩).watchId = some 0 ∧
    (initReadFailure ⟨some 0, []⟩).surfacedErrors = [] ∧
    oneShotRequest.hasErrorCallback = false ∧
    oneShotRequest.timeoutMs = none :=
  ⟨rfl, rfl, rfl, rfl⟩

/-- **C8, amended.** Failures during continuous observation (any error
code: timeout, permission denial, hardware error) stop the watch and
surface exactly one new user-visible error, with no retry; the watch request
does register an error callback and a 10 s bounded wait.  A failure of the
initial one-shot read, however, is silently ignored: no error callback is
registered for it and the session state is untouched. -/
theorem c8_error_handling_amended (s : TrackerSession) (code : Nat) :
    (handleError code s).watchId = none ∧
    (handleError code s).surfacedErrors.length = s.surfacedErrors.length + 1 ∧
    initReadFailure s = s ∧
    watchRequest.hasErrorCallback = true ∧
    watchRequest.timeoutMs = some 10000 ∧
    oneShotRequest.hasErrorCallback = false := by
  cases s with
  | mk w errs =>
    cases w <;>
      simp [handleError, stopWatchingLocation, initReadFailure, watchRequest,
        oneShotRequest]

/-! ## Claims about the distance function -/

open Real in
/-- The `a` term of the haversine formula in `calculateDistance`. -/
noncomputable def haversineA (lat1 lon1 lat2 lon2 : ℝ) : ℝ :=
  sin ((lat2 - lat1) * π / 180 / 2) * sin ((lat2 - lat1) * π / 180 / 2) +
    cos (lat1 * π / 180) * cos (lat2 * π / 180) *
      sin ((lon2 - lon1) * π / 180 / 2) * sin ((lon2 - lon1) * π / 180 / 2)

theorem calculateDistance_eq (lat1 lon1 lat2 lon2 : ℝ) :
    calculateDistance lat1 lon1 lat2 lon2 =
      6371000 * (2 * atan2 (Real.sqrt (haversineA lat1 lon1 lat2 lon2))
        (Real.sqrt (1 - haversineA lat1 lon1 lat2 lon2))) :=
  rfl

theorem atan2_nonneg (y x : ℝ) (hy : 0 ≤ y) : 0 ≤ atan2 y x :=
  Complex.arg_nonneg_iff.mpr hy

theorem atan2_zero_one : atan2 0 1 = 0 := by
  have h1 : (⟨1, 0⟩ : ℂ) = 1 := by
    apply Complex.ext <;> simp
  rw [atan2, h1, Complex.arg_one]

theorem haversineA_self (lat lon : ℝ) : haversineA lat lon lat lon = 0 := by
  unfold haversineA
  norm_num

theorem haversineA_symm (lat1 lon1 lat2 lon2 : ℝ) :
    haversineA lat1 lon1 lat2 lon2 = haversineA lat2 lon2 lat1 lon1 := by
  unfold haversineA
  have h1 : (lat1 - lat2) * Real.pi / 180 / 2 =
      -((lat2 - lat1) * Real.pi / 180 / 2) := by ring
  have h2 : (lon1 - lon2) * Real.pi / 180 / 2 =
      -((lon2 - lon1) * Real.pi / 180 / 2) := by ring
  rw [h1, h2, Real.sin_neg, Real.sin_neg]
  ring

/-- **C9, counterexample.** Two distinct coordinate pairs at the north pole
(90° latitude, longitudes 0° and 50°) are at computed distance exactly 0,
refuting "zero only for identical coordinates": the zero set also contains
distinct coordinates denoting the same spherical point. -/
theorem c9_counterexample :
    calculateDistance 90 0 90 50 = 0 ∧ (0 : ℝ) ≠ 50 := by
  constructor
  · have hA : haversineA 90 0 90 50 = 0 := by
      unfold haversineA
      have h0 : ((90 : ℝ) - 90) * Real.pi / 180 / 2 = 0 := by ring
      have h90 : (90 : ℝ) * Real.pi / 180 = Real.pi / 2 := by ring
      rw [h0, h90, Real.cos_pi_div_two, Real.sin_zero]
      ring
    rw [calculateDistance_eq, hA]
    norm_num [atan2_zero_one]
  · norm_num

/-- **C9, amended.** `calculateDistance` is a pure haversine distance on a
sphere of radius 6 371 000 m: it vanishes on identical coordinates, is
symmetric, and is non-negative everywhere.  (It can also vanish on distinct
coordinates naming the same spherical point, e.g. at the poles.) -/
theorem c9_distance_properties (lat1 lon1 lat2 lon2 : ℝ) :
    calculateDistance lat1 lon1 lat1 lon1 = 0 ∧
    calculateDistance lat1 lon1 lat2 lon2 = calculateDistance lat2 lon2 lat1 lon1 ∧
    0 ≤ calculateDistance lat1 lon1 lat2 lon2 := by
  refine ⟨?_, ?_, ?_⟩
  · rw [calculateDistance_eq, haversineA_self]
    norm_num [atan2_zero_one]
  · rw [calculateDistance_eq, calculateDistance_eq,
      haversineA_symm lat1 lon1 lat2 lon2]
  · rw [calculateDistance_eq]
    have h1 := atan2_nonneg (Real.sqrt (haversineA lat1 lon1 lat2 lon2))
      (Real.sqrt (1 - haversineA lat1 lon1 lat2 lon2))
      (Real.sqrt_nonneg _)
    positivity

end SmartReminder
